import Mathlib

/-!
Verification of the label-text recovery pipeline of `ndpi-thumb-ocr`
(`src/ocr_utils.py`, `src/qr_utils.py`, `src/make_thumbs.py`).

Conventions of the shallow embedding:
* Python floats are modelled as exact rationals (`ℚ`); the truncations
  `int(w * 0.20)` etc. on nonnegative values are modelled as exact floors,
  which for the fixed decimal constants of the source are Nat divisions.
* PIL images are modelled two ways, matching how the source uses them:
  a concrete grayscale raster `GImg` (width, height, 8-bit intensity per
  pixel) wherever pixel data is inspected (`find_label_crop_box`), and a
  symbolic term type `PImg` of image operations wherever images are only
  passed through PIL transformations and handed to the opaque OCR/QR
  engines (`_iter_candidates`, `ocr_image`, `decode_qr`).
* The external engines (pytesseract, cv2) are opaque parameters: a pure
  data-mode function returning `Option OcrData` (`none` models a raised
  `pytesseract.TesseractError`), a pure text-mode function returning
  `String`, and a pure QR detector returning the decoded payload string
  (`""` when no code is found), exactly as the spec prescribes.
-/

set_option autoImplicit false

/-- One character class of the word regex of ocr_utils.py line 42
(ASCII alphanumerics or the CJK ranges U+4E00–U+9FAF, U+3041–U+3093,
U+30A1–U+30F3). -/
def isWordChar (c : Char) : Bool :=
  (('A' ≤ c && c ≤ 'Z') || ('a' ≤ c && c ≤ 'z') || ('0' ≤ c && c ≤ '9'))
    || (0x4E00 ≤ c.toNat && c.toNat ≤ 0x9FAF)
    || (0x3041 ≤ c.toNat && c.toNat ≤ 0x3093)
    || (0x30A1 ≤ c.toNat && c.toNat ≤ 0x30F3)

/-- The regex search of `_word_re.search(t)` succeeds iff some character of
`t` matches. (`.data` is the character list of the string.) -/
def hasWordChar (t : String) : Bool := t.data.any isWordChar

/-- The two fields of the pytesseract `image_to_data` DICT result that
`_mean_confidence` reads: `data.get("conf", [])` and `data.get("text", [])`.
Confidences are numbers (the `float(c)` coercion of the source always
succeeds on them). -/
structure OcrData where
  conf : List ℚ
  text : List String

/-- `_mean_confidence` (ocr_utils.py lines 45–58): walk
`zip(data["conf"], data["text"])`, skip entries with confidence `< 0`,
skip entries whose text is empty or has no word character, and return
the mean of the kept confidences, `0.0` when none are kept. -/
def meanConfidence (d : OcrData) : ℚ :=
  let confs := (d.conf.zip d.text).filterMap fun ct =>
    if ct.1 < 0 then none
    else if ct.2 = "" ∨ hasWordChar ct.2 = false then none
    else some ct.1
  if confs.isEmpty then 0 else confs.sum / confs.length

/-- Spec-side reading of claim C2: the tokens that qualify for scoring are
exactly those with confidence `≥ 0` whose text contains at least one
alphanumeric or CJK character. -/
def specQualifying (conf : List ℚ) (text : List String) : List (ℚ × String) :=
  (conf.zip text).filter fun ct => decide (0 ≤ ct.1) && hasWordChar ct.2

theorem filterMap_kept_general (l : List (ℚ × String)) :
    (l.filterMap fun ct =>
      if ct.1 < 0 then none
      else if ct.2 = "" ∨ hasWordChar ct.2 = false then none
      else some ct.1)
      = (l.filter fun ct => decide (0 ≤ ct.1) && hasWordChar ct.2).map Prod.fst := by
  induction l with
  | nil => rfl
  | cons ct l ih =>
    by_cases hneg : ct.1 < 0
    · have h0 : ¬ (0 ≤ ct.1) := not_le.mpr hneg
      simp [List.filterMap_cons, List.filter_cons, hneg, h0, ih]
    · by_cases hskip : ct.2 = "" ∨ hasWordChar ct.2 = false
      · have hw : hasWordChar ct.2 = false := by
          rcases hskip with h | h
          · rw [h]; rfl
          · exact h
        simp [List.filterMap_cons, List.filter_cons, hneg, hskip, hw, ih]
      · push_neg at hskip
        have hw : hasWordChar ct.2 = true := Bool.ne_false_iff.mp hskip.2
        have h0 : 0 ≤ ct.1 := not_lt.mp hneg
        simp [List.filterMap_cons, List.filter_cons, hneg, hskip, hw, h0, ih]

theorem filterMap_kept_eq (conf : List ℚ) (text : List String) :
    ((conf.zip text).filterMap fun ct =>
      if ct.1 < 0 then none
      else if ct.2 = "" ∨ hasWordChar ct.2 = false then none
      else some ct.1)
      = (specQualifying conf text).map Prod.fst :=
  filterMap_kept_general (conf.zip text)

/-- C2: the candidate score is the arithmetic mean of the confidences of
exactly the qualifying tokens (confidence ≥ 0 and text containing an
alphanumeric or CJK character), and it is exactly 0 when no token
qualifies — in particular when every token text is empty or every
confidence is negative. -/
theorem claim_C2 (conf : List ℚ) (text : List String) :
    (meanConfidence ⟨conf, text⟩ =
      if specQualifying conf text = [] then 0
      else ((specQualifying conf text).map Prod.fst).sum
            / ((specQualifying conf text).length : ℚ))
    ∧ ((∀ t ∈ text, t = "") → meanConfidence ⟨conf, text⟩ = 0)
    ∧ ((∀ c ∈ conf, c < 0) → meanConfidence ⟨conf, text⟩ = 0) := by
  have hmain : meanConfidence ⟨conf, text⟩ =
      if specQualifying conf text = [] then 0
      else ((specQualifying conf text).map Prod.fst).sum
            / ((specQualifying conf text).length : ℚ) := by
    simp only [meanConfidence]
    rw [filterMap_kept_eq]
    rcases hq : specQualifying conf text with _ | ⟨a, q⟩
    · simp
    · simp [List.length_map]
  refine ⟨hmain, ?_, ?_⟩
  · intro hall
    have hnil : specQualifying conf text = [] := by
      simp only [specQualifying]
      rw [List.filter_eq_nil_iff]
      intro ct hct
      obtain ⟨c, t⟩ := ct
      have ht : t ∈ text := (List.of_mem_zip hct).2
      have h0 : t = "" := hall t ht
      have hw : hasWordChar t = false := by rw [h0]; rfl
      simp [hw]
    rw [hmain, hnil]
    simp
  · intro hall
    have hnil : specQualifying conf text = [] := by
      simp only [specQualifying]
      rw [List.filter_eq_nil_iff]
      intro ct hct
      obtain ⟨c, t⟩ := ct
      have hc : c ∈ conf := (List.of_mem_zip hct).1
      have : c < 0 := hall c hc
      simp [not_le.mpr this]
    rw [hmain, hnil]
    simp

/-- Concrete instance of C2: a mixed token list where only the first token
qualifies, and an all-empty-text list scoring 0. -/
theorem claim_C2_witness :
    meanConfidence ⟨[90, -1, 95], ["ab", "x", "!!"]⟩ = 90
      ∧ meanConfidence ⟨[50], [""]⟩ = 0 := by
  constructor
  · rw [(claim_C2 [90, -1, 95] ["ab", "x", "!!"]).1]
    have hq : specQualifying [90, -1, 95] ["ab", "x", "!!"] = [(90, "ab")] := by
      decide
    rw [hq]
    norm_num
  · exact (claim_C2 [50] [""]).2.1 (by decide)

/-- `OcrCfg` (ocr_utils.py lines 16–38), with the source's defaults.
`label_width_ratio` and `early_stop_conf` are Python floats, modelled as
exact rationals. -/
structure OcrCfg where
  enabled : Bool := false
  lang_candidates : List String := ["jpn+eng", "jpn"]
  psm_candidates : List Int := [6, 11]
  oem : Int := 3
  upscale : Nat := 6
  threshold : Option Nat := none
  sharpen : Bool := true
  auto_rotate : Bool := true
  rotate_degrees : Option Int := none
  rotation_candidates : List Int := [0, -90]
  crop_label : Bool := true
  label_width_ratio : ℚ := 33 / 100
  early_stop_conf : ℚ := 75

/-- A concrete grayscale raster: the result of `np.array(img.convert("L"))`.
`px x y` is the 8-bit intensity of column `x`, row `y` (values 0–255). -/
structure GImg where
  w : Nat
  h : Nat
  px : Nat → Nat → Nat

/-- The vertical band `[int(h*0.15), int(h*0.85))` of rows used for the
column means, with the safety reset to `[0, h)` when it is empty
(ocr_utils.py lines 213–217). `int(h*0.15)` is the exact floor
`15*h/100`. -/
def bandRange (h : Nat) : Nat × Nat :=
  let y0 := 15 * h / 100
  let y1 := 85 * h / 100
  if y1 ≤ y0 then (0, h) else (y0, y1)

/-- `dark[x] = (col_mean[x] < 60)`: the mean intensity of column `x` over
the band rows is below 60. Stated over naturals as `sum < 60 * rows`,
which is exactly `sum / rows < 60` for the nonempty band. -/
def darkCol (g : GImg) (x : Nat) : Bool :=
  let b := bandRange g.h
  ((List.range (b.2 - b.1)).map fun k => g.px x (b.1 + k)).sum < 60 * (b.2 - b.1)

/-- The horizontal search window `[int(w*0.10), int(w*0.70))`, with the
safety reset to `[0, w)` when empty (ocr_utils.py lines 226–229). -/
def searchWindow (w : Nat) : Nat × Nat :=
  let xs := 10 * w / 100
  let xe := 70 * w / 100
  if xe ≤ xs then (0, w) else (xs, xe)

/-- `min_run = max(6, int(w * 0.01))` (ocr_utils.py line 233). -/
def minRunLen (w : Nat) : Nat := max 6 (w / 100)

/-- The inner `while j < x_end and dark[j]: j += 1` loop, as the number of
consecutive dark columns from `j`, capped at `k` remaining positions. -/
def darkRunLen (dark : Nat → Bool) : Nat → Nat → Nat
  | _, 0 => 0
  | j, k + 1 => if dark j then darkRunLen dark (j + 1) k + 1 else 0

/-- Where the inner loop leaves `j`: the end of the dark run starting at
`j`, capped at `xEnd`. -/
def runEnd (dark : Nat → Bool) (xEnd j : Nat) : Nat :=
  j + darkRunLen dark j (xEnd - j)

/-- One candidate separator run `(run_len, start, end)`, as stored in
`best`. -/
abbrev SepRun := Nat × Nat × Nat

/-- `run_len >= min_run and (best is None or run_len > best[0])`
(ocr_utils.py line 245). -/
def runBeats (minRun : Nat) (best : Option SepRun) (runLen : Nat) : Bool :=
  decide (minRun ≤ runLen) &&
    (match best with
     | none => true
     | some b => decide (b.1 < runLen))

/-- The outer `while i < x_end` scan of ocr_utils.py lines 235–248.
Each iteration advances `i` by at least one column, so running it with
`fuel = xEnd - i` performs exactly the iterations of the Python loop:
when the fuel is exhausted, `i ≥ xEnd` already holds and the loop would
exit anyway. -/
def scanAux (dark : Nat → Bool) (xEnd minRun : Nat) :
    Nat → Nat → Option SepRun → Option SepRun
  | 0, _, best => best
  | fuel + 1, i, best =>
    if i < xEnd then
      if dark i then
        let j := runEnd dark xEnd i
        let best' := if runBeats minRun best (j - i) then some (j - i, i, j) else best
        scanAux dark xEnd minRun fuel j best'
      else
        scanAux dark xEnd minRun fuel (i + 1) best
    else best

/-- The full separator-bar search of `find_label_crop_box`: the longest
dark run of length at least `min_run` inside the search window (earliest
among equals), or `none`. -/
def scanSep (g : GImg) : Option SepRun :=
  let win := searchWindow g.w
  scanAux (darkCol g) win.2 (minRunLen g.w) (win.2 - win.1) win.1 none

/-- `find_label_crop_box` (ocr_utils.py lines 199–259): crop box
`(left, top, right, bottom)`. If a separator run was found starting at
`start`, `right = min(w, max(int(w*0.20), start + 10))`; otherwise the
fallback `right = max(1, int(w * label_width_ratio))`. -/
def findLabelCropBox (g : GImg) (cfg : OcrCfg) : Nat × Nat × Nat × Nat :=
  match scanSep g with
  | some (_, start, _) =>
    let right := max (20 * g.w / 100) (start + 10)
    (0, 0, min g.w right, g.h)
  | none =>
    let right := (⌊(g.w : ℚ) * cfg.label_width_ratio⌋).toNat
    (0, 0, max 1 right, g.h)

theorem runBeats_min {minRun : Nat} {best : Option SepRun} {runLen : Nat}
    (h : runBeats minRun best runLen = true) : minRun ≤ runLen := by
  have := (Bool.and_eq_true _ _).mp h
  exact of_decide_eq_true this.1

/-- Any run stored in `best` by the scan loop has length at least
`minRun`, starts inside `[lb, xEnd)`, and starts at a dark column. -/
theorem scanAux_inv (dark : Nat → Bool) (xEnd minRun lb : Nat) :
    ∀ fuel i best, lb ≤ i →
      (∀ l s e, best = some (l, s, e) →
        minRun ≤ l ∧ lb ≤ s ∧ s < xEnd ∧ dark s = true) →
      ∀ l s e, scanAux dark xEnd minRun fuel i best = some (l, s, e) →
        minRun ≤ l ∧ lb ≤ s ∧ s < xEnd ∧ dark s = true := by
  intro fuel
  induction fuel with
  | zero => intro i best _ hbest l s e h; exact hbest l s e h
  | succ fuel ih =>
    intro i best hi hbest l s e h
    rw [scanAux] at h
    by_cases hlt : i < xEnd
    · rw [if_pos hlt] at h
      by_cases hd : dark i
      · rw [if_pos hd] at h
        refine ih (runEnd dark xEnd i) _ ?_ ?_ l s e h
        · exact le_trans hi (Nat.le_add_right i _)
        · intro l' s' e' hb'
          by_cases hbeat : runBeats minRun best (runEnd dark xEnd i - i) = true
          · rw [if_pos hbeat] at hb'
            have heq := Option.some.inj hb'
            simp only [Prod.mk.injEq] at heq
            obtain ⟨h1, h2, h3⟩ := heq
            subst h1; subst h2
            exact ⟨runBeats_min hbeat, hi, hlt, hd⟩
          · rw [if_neg hbeat] at hb'
            exact hbest l' s' e' hb'
      · rw [if_neg hd] at h
        exact ih (i + 1) best (le_trans hi (Nat.le_succ i)) hbest l s e h
    · rw [if_neg hlt] at h
      exact hbest l s e h

/-- C3: if the separator scan finds a qualifying dark run (length at least
`max(6, int(0.01*w))`, inside the search window, starting at a dark
column `s`), `find_label_crop_box` returns
`(0, 0, min(w, max(int(0.20*w), s + 10)), h)`; if no run qualifies it
returns the fallback `(0, 0, max(1, int(w * label_width_ratio)), h)`. -/
theorem claim_C3 (g : GImg) (cfg : OcrCfg)
    (hw : 1 ≤ g.w) (hh : 1 ≤ g.h)
    (hr0 : 0 < cfg.label_width_ratio) (hr1 : cfg.label_width_ratio ≤ 1) :
    (∀ len s e, scanSep g = some (len, s, e) →
      findLabelCropBox g cfg
          = (0, 0, min g.w (max (20 * g.w / 100) (s + 10)), g.h)
        ∧ minRunLen g.w ≤ len
        ∧ (searchWindow g.w).1 ≤ s ∧ s < (searchWindow g.w).2
        ∧ darkCol g s = true)
    ∧ (scanSep g = none →
      findLabelCropBox g cfg
          = (0, 0, max 1 (⌊(g.w : ℚ) * cfg.label_width_ratio⌋).toNat, g.h)) := by
  constructor
  · intro len s e hscan
    have hfacts := scanAux_inv (darkCol g) (searchWindow g.w).2 (minRunLen g.w)
      (searchWindow g.w).1 ((searchWindow g.w).2 - (searchWindow g.w).1)
      (searchWindow g.w).1 none (le_refl _)
      (by intro l' s' e' h'; exact absurd h' (Option.noConfusion))
      len s e (by simpa [scanSep] using hscan)
    refine ⟨?_, hfacts.1, hfacts.2.1, hfacts.2.2.1, hfacts.2.2.2⟩
    simp [findLabelCropBox, hscan, Nat.min_comm]
  · intro hscan
    simp [findLabelCropBox, hscan]

/-- The uniform 40×10 image with a dark bar in columns 10–17 (inside the
search window [4, 28), band rows [1, 8)). -/
def exG3 : GImg := ⟨40, 10, fun x _ => if 10 ≤ x ∧ x < 18 then 0 else 200⟩

theorem claim_C3_witness :
    findLabelCropBox exG3 {}
        = (0, 0, min exG3.w (max (20 * exG3.w / 100) (10 + 10)), exG3.h)
      ∧ minRunLen exG3.w ≤ 8
      ∧ (searchWindow exG3.w).1 ≤ 10 ∧ 10 < (searchWindow exG3.w).2
      ∧ darkCol exG3 10 = true :=
  (claim_C3 exG3 {} (by decide) (by decide)
    (show (0 : ℚ) < 33 / 100 by norm_num)
    (show (33 : ℚ) / 100 ≤ 1 by norm_num)).1
    8 10 18 (by decide)

/-- C4: on any image with positive width and height and any configuration
with `0 < label_width_ratio ≤ 1`, the crop box `(left, top, right, bottom)`
returned by `find_label_crop_box` satisfies `left < right ≤ width` and
`top < bottom ≤ height` (the bounds `0 ≤ left` and `0 ≤ top` hold since
the components are naturals). -/
theorem claim_C4 (g : GImg) (cfg : OcrCfg)
    (hw : 1 ≤ g.w) (hh : 1 ≤ g.h)
    (hr0 : 0 < cfg.label_width_ratio) (hr1 : cfg.label_width_ratio ≤ 1) :
    ∀ l t r b, findLabelCropBox g cfg = (l, t, r, b) →
      l < r ∧ r ≤ g.w ∧ t < b ∧ b ≤ g.h := by
  intro l t r b heq
  rcases hscan : scanSep g with _ | ⟨⟨len, s, e⟩⟩
  · simp only [findLabelCropBox, hscan, Prod.mk.injEq] at heq
    obtain ⟨h1, h2, h3, h4⟩ := heq
    subst h1; subst h2; subst h3; subst h4
    have hfloor : ⌊(g.w : ℚ) * cfg.label_width_ratio⌋ ≤ (g.w : ℤ) := by
      have hle : (g.w : ℚ) * cfg.label_width_ratio ≤ (g.w : ℚ) :=
        mul_le_of_le_one_right (by positivity) hr1
      calc ⌊(g.w : ℚ) * cfg.label_width_ratio⌋ ≤ ⌊(g.w : ℚ)⌋ :=
            Int.floor_le_floor hle
        _ = (g.w : ℤ) := Int.floor_natCast g.w
    have htn : (⌊(g.w : ℚ) * cfg.label_width_ratio⌋).toNat ≤ g.w :=
      Int.toNat_le.mpr hfloor
    exact ⟨Nat.lt_of_lt_of_le Nat.zero_lt_one (Nat.le_max_left 1 _),
      max_le hw htn, hh, le_refl _⟩
  · simp only [findLabelCropBox, hscan, Prod.mk.injEq] at heq
    obtain ⟨h1, h2, h3, h4⟩ := heq
    subst h1; subst h2; subst h3; subst h4
    refine ⟨?_, min_le_left _ _, hh, le_refl _⟩
    have : 10 ≤ max (20 * g.w / 100) (s + 10) :=
      le_trans (by omega) (Nat.le_max_right _ (s + 10))
    omega

/-- The uniform bright 30×10 image: no dark column, so the fallback crop
applies. -/
def exG4 : GImg := ⟨30, 10, fun _ _ => 200⟩

theorem claim_C4_witness :
    (0 : Nat) < 9 ∧ 9 ≤ 30 ∧ (0 : Nat) < 10 ∧ 10 ≤ 10 := by
  have hscan : scanSep exG4 = none := by decide
  have hbox : findLabelCropBox exG4 {} = (0, 0, 9, 10) := by
    have h9 : ⌊(30 : ℚ) * (33 / 100)⌋ = 9 := by
      rw [Int.floor_eq_iff]
      norm_num
    simp only [findLabelCropBox, hscan]
    norm_num [exG4, h9]
    decide
  exact claim_C4 exG4 {} (by decide) (by decide)
    (show (0 : ℚ) < 33 / 100 by norm_num)
    (show (33 : ℚ) / 100 ≤ 1 by norm_num)
    0 0 9 10 hbox

/-- Symbolic PIL images: the operations the pipeline applies to images it
never inspects pixel-wise. `base` is the raw input raster; `cropped b`
is `img.crop(b)`; `rotated d` is `img.rotate(d, expand=True)`;
`trimmedBottom` is `_trim_bottom(img, 0.25)` (crop to
`(0, 0, w, max(1, h - int(h*0.25)))`, bottom quarter removed);
`padded n` is `ImageOps.expand(img, border=n, fill="white")`; the
remaining constructors are the steps of `preprocess_for_ocr`
(grayscale, LANCZOS upscale, autocontrast, contrast 1.5, binarize at a
threshold, unsharp mask). -/
inductive PImg where
  | base (g : GImg)
  | cropped (box : Nat × Nat × Nat × Nat) (i : PImg)
  | rotated (deg : Int) (i : PImg)
  | trimmedBottom (i : PImg)
  | padded (px : Nat) (i : PImg)
  | gray (i : PImg)
  | resized (factor : Nat) (i : PImg)
  | autocontrast (i : PImg)
  | contrast (i : PImg)
  | thresholded (t : Nat) (i : PImg)
  | sharpened (i : PImg)

/-- `_get_rotations` (ocr_utils.py lines 83–88). -/
def getRotations (cfg : OcrCfg) : List Int :=
  match cfg.rotate_degrees with
  | some d => [d]
  | none => if cfg.auto_rotate then cfg.rotation_candidates else [0]

/-- `_get_regions` (ocr_utils.py lines 91–100): full image only when label
cropping is disabled, else the detected label crop followed by the full
image. -/
def getRegions (g : GImg) (cfg : OcrCfg) : List PImg :=
  if cfg.crop_label = false then [PImg.base g]
  else [PImg.cropped (findLabelCropBox g cfg) (PImg.base g), PImg.base g]

/-- One candidate: (image recipe, language, page segmentation mode). -/
abbrev Cand := PImg × String × Int

/-- `_iter_candidates` (ocr_utils.py lines 114–130), as the finite list the
generator produces, in generation order: language (outer) → psm →
region → rotation; for each rotation the padded rotated region, and for
rotation 0 additionally the bottom-trimmed variant. -/
def iterCandidates (g : GImg) (cfg : OcrCfg) : List Cand :=
  let rotations := getRotations cfg
  let regions := getRegions g cfg
  cfg.lang_candidates.bind fun lang =>
    cfg.psm_candidates.bind fun psm =>
      regions.bind fun rimg =>
        rotations.bind fun deg =>
          (PImg.padded 20 (PImg.rotated deg rimg), lang, psm)
            :: (if deg = 0 then
                  [(PImg.padded 20 (PImg.trimmedBottom (PImg.rotated deg rimg)),
                    lang, psm)]
                else [])

/-- Spec-side emission for one (region, rotation) pair, following §4.2 of
the spec: always the rotated-and-white-padded full region; exactly when
the rotation is 0°, additionally the bottom-trimmed variant. -/
def specEmit (rimg : PImg) (deg : Int) (lang : String) (psm : Int) : List Cand :=
  if deg = 0 then
    [(PImg.padded 20 (PImg.rotated deg rimg), lang, psm),
     (PImg.padded 20 (PImg.trimmedBottom (PImg.rotated deg rimg)), lang, psm)]
  else
    [(PImg.padded 20 (PImg.rotated deg rimg), lang, psm)]

/-- Spec-side candidate enumeration: deterministic nesting
language (outer) → psm → region → rotation over `specEmit`. -/
def specCandidates (g : GImg) (cfg : OcrCfg) : List Cand :=
  cfg.lang_candidates.bind fun lang =>
    cfg.psm_candidates.bind fun psm =>
      (getRegions g cfg).bind fun rimg =>
        (getRotations cfg).bind fun deg =>
          specEmit rimg deg lang psm

/-- C5: `_iter_candidates` enumerates exactly the spec's sequence — ordered
language → psm → region → rotation, with the full padded rotation always
emitted and the bottom-trimmed variant emitted exactly for rotation 0. -/
theorem claim_C5 (g : GImg) (cfg : OcrCfg) :
    iterCandidates g cfg = specCandidates g cfg := by
  simp only [iterCandidates, specCandidates]
  refine congrArg _ (funext fun lang => ?_)
  refine congrArg _ (funext fun psm => ?_)
  refine congrArg _ (funext fun rimg => ?_)
  refine congrArg _ (funext fun deg => ?_)
  by_cases h : deg = 0
  · simp [specEmit, h]
  · simp [specEmit, h]

/-- `preprocess_for_ocr` (ocr_utils.py lines 158–186), as the symbolic
pipeline: grayscale; LANCZOS upscale when `upscale > 1`; autocontrast;
contrast 1.5; optional binarization; optional unsharp mask. -/
def preprocessForOcr (i : PImg) (cfg : OcrCfg) : PImg :=
  let g := PImg.gray i
  let g := if 1 < cfg.upscale then PImg.resized cfg.upscale g else g
  let g := PImg.contrast (PImg.autocontrast g)
  let g := match cfg.threshold with
    | some t => PImg.thresholded t g
    | none => g
  if cfg.sharpen then PImg.sharpened g else g

/-- The opaque pytesseract `image_to_data` call, as a pure function of the
(preprocessed) image, language, oem and psm. `none` models a raised
`pytesseract.TesseractError`. -/
abbrev DataEngine := PImg → String → Int → Int → Option OcrData

/-- The opaque pytesseract `image_to_string` call. -/
abbrev TextEngine := PImg → String → Int → Int → String

/-- `_score_candidate` (ocr_utils.py lines 61–70): preprocess, run the data
engine, take the mean confidence; a raised engine error scores `-1.0`. -/
def scoreCandidate (engine : DataEngine) (cfg : OcrCfg) (c : Cand) : ℚ :=
  match engine (preprocessForOcr c.1 cfg) c.2.1 cfg.oem c.2.2 with
  | some d => meanConfidence d
  | none => -1

/-- `_final_ocr` (ocr_utils.py lines 73–76): preprocess and run the
full-text engine. -/
def finalOcr (textEngine : TextEngine) (cfg : OcrCfg) (c : Cand) : String :=
  textEngine (preprocessForOcr c.1 cfg) c.2.1 cfg.oem c.2.2

/-- `best is None or score > best[0]` (ocr_utils.py line 138). -/
def bestImproved : Option (ℚ × Cand) → ℚ → Bool
  | none, _ => true
  | some b, s => decide (b.1 < s)

/-- The candidate loop of `ocr_image` (ocr_utils.py lines 136–142),
instrumented with the number of candidates it scores: each iteration
scores exactly one candidate; reaching the early-stop threshold
re-assigns `best` and breaks. -/
def ocrLoop (score : Cand → ℚ) (th : ℚ) :
    List Cand → Option (ℚ × Cand) → Option (ℚ × Cand) × Nat
  | [], best => (best, 0)
  | c :: rest, best =>
    let s := score c
    let best' := if bestImproved best s then some (s, c) else best
    if th ≤ s then (some (s, c), 1)
    else
      let r := ocrLoop score th rest best'
      (r.1, r.2 + 1)

/-- `ocr_image` (ocr_utils.py lines 133–148): run the loop over
`_iter_candidates` starting from `best = None`; return `""` when no
candidate exists, else the full-text OCR of the selected candidate. -/
def ocrImage (engine : DataEngine) (textEngine : TextEngine)
    (g : GImg) (cfg : OcrCfg) : String :=
  match (ocrLoop (scoreCandidate engine cfg) cfg.early_stop_conf
      (iterCandidates g cfg) none).1 with
  | none => ""
  | some (_, c) => finalOcr textEngine cfg c

/-- If position `i` holds the first candidate scoring at least the
threshold, the loop returns that candidate with its score, having scored
exactly `i + 1` candidates, whatever the accumulator. -/
theorem ocrLoop_first_hit (score : Cand → ℚ) (th : ℚ) :
    ∀ (l : List Cand) (best : Option (ℚ × Cand)) (i : Nat) (c : Cand),
      (∀ j x, j < i → l[j]? = some x → score x < th) →
      l[i]? = some c → th ≤ score c →
      ocrLoop score th l best = (some (score c, c), i + 1) := by
  intro l
  induction l with
  | nil => intro best i c _ hc _; simp at hc
  | cons a rest ih =>
    intro best i c hbefore hc hq
    cases i with
    | zero =>
      have ha : a = c := by simpa using hc
      subst ha
      simp only [ocrLoop, if_pos hq]
    | succ i =>
      have hlt : score a < th := hbefore 0 a (Nat.succ_pos i) (by simp)
      have hrec := ih (if bestImproved best (score a) then some (score a, a) else best)
        i c (fun j x hj hx => hbefore (j + 1) x (by omega) (by simpa using hx))
        (by simpa using hc) hq
      simp only [ocrLoop, if_neg (not_le.mpr hlt), hrec]

/-- C1: with the OCR engine a pure scoring function, whenever some
candidate reaches the early-stop confidence, `ocr_image` selects the
first such candidate in generation order (position `i`), scores exactly
`i + 1` candidates (none generated after it), and returns the full-text
OCR of that candidate — regardless of the scores of later candidates. -/
theorem claim_C1 (engine : DataEngine) (textEngine : TextEngine)
    (g : GImg) (cfg : OcrCfg) (i : Nat) (c : Cand)
    (hbefore : ∀ j x, j < i → (iterCandidates g cfg)[j]? = some x →
      scoreCandidate engine cfg x < cfg.early_stop_conf)
    (hc : (iterCandidates g cfg)[i]? = some c)
    (hq : cfg.early_stop_conf ≤ scoreCandidate engine cfg c) :
    ocrImage engine textEngine g cfg = finalOcr textEngine cfg c
      ∧ ocrLoop (scoreCandidate engine cfg) cfg.early_stop_conf
          (iterCandidates g cfg) none
          = (some (scoreCandidate engine cfg c, c), i + 1) := by
  have hloop := ocrLoop_first_hit (scoreCandidate engine cfg) cfg.early_stop_conf
    (iterCandidates g cfg) none i c hbefore hc hq
  refine ⟨?_, hloop⟩
  simp only [ocrImage, hloop]

/-- Detects the bottom-trim marker in a candidate recipe; used to build
concrete engine functions that give different scores to the plain and the
trimmed variant of the same region. -/
def hasTrim : PImg → Bool
  | .base _ => false
  | .cropped _ i => hasTrim i
  | .rotated _ i => hasTrim i
  | .trimmedBottom _ => true
  | .padded _ i => hasTrim i
  | .gray i => hasTrim i
  | .resized _ i => hasTrim i
  | .autocontrast i => hasTrim i
  | .contrast i => hasTrim i
  | .thresholded _ i => hasTrim i
  | .sharpened i => hasTrim i

/-- Configuration with one language, one psm, no cropping and no rotation:
exactly two candidates (plain, then trimmed). -/
def exCfg1 : OcrCfg :=
  { enabled := true, lang_candidates := ["eng"], psm_candidates := [6],
    auto_rotate := false, crop_label := false }

/-- Engine scoring the plain variant 80 and the trimmed variant 90. -/
def exEngine1 : DataEngine := fun i _ _ _ =>
  if hasTrim i then some ⟨[90], ["B"]⟩ else some ⟨[80], ["A"]⟩

/-- Text engine returning a fixed string. -/
def exText1 : TextEngine := fun _ _ _ _ => "T"

/-- The first generated candidate under `exCfg1`. -/
def exCand0 : Cand := (PImg.padded 20 (PImg.rotated 0 (PImg.base exG4)), "eng", 6)

/-- The second generated candidate under `exCfg1` (bottom-trimmed). -/
def exCand1 : Cand :=
  (PImg.padded 20 (PImg.trimmedBottom (PImg.rotated 0 (PImg.base exG4))), "eng", 6)

theorem exScore0 : scoreCandidate exEngine1 exCfg1 exCand0 = 80 := by
  have h : scoreCandidate exEngine1 exCfg1 exCand0 = meanConfidence ⟨[80], ["A"]⟩ :=
    rfl
  rw [h]
  simp only [meanConfidence]
  rw [filterMap_kept_eq]
  have hq : specQualifying [80] ["A"] = [(80, "A")] := by decide
  rw [hq]
  norm_num

theorem exScore1 : scoreCandidate exEngine1 exCfg1 exCand1 = 90 := by
  have h : scoreCandidate exEngine1 exCfg1 exCand1 = meanConfidence ⟨[90], ["B"]⟩ :=
    rfl
  rw [h]
  simp only [meanConfidence]
  rw [filterMap_kept_eq]
  have hq : specQualifying [90] ["B"] = [(90, "B")] := by decide
  rw [hq]
  norm_num

/-- Concrete instance of C1: two candidates scoring 80 then 90 with
threshold 75 — the loop stops after the first candidate and returns its
full-text OCR even though the later candidate scores strictly higher. -/
theorem claim_C1_witness :
    (ocrImage exEngine1 exText1 exG4 exCfg1 = finalOcr exText1 exCfg1 exCand0
        ∧ ocrLoop (scoreCandidate exEngine1 exCfg1) exCfg1.early_stop_conf
            (iterCandidates exG4 exCfg1) none
            = (some (scoreCandidate exEngine1 exCfg1 exCand0, exCand0), 0 + 1))
      ∧ scoreCandidate exEngine1 exCfg1 exCand0 = 80
      ∧ scoreCandidate exEngine1 exCfg1 exCand1 = 90 := by
  refine ⟨?_, exScore0, exScore1⟩
  refine claim_C1 exEngine1 exText1 exG4 exCfg1 0 exCand0
    (fun j x hj _ => absurd hj (Nat.not_lt_zero j)) rfl ?_
  rw [exScore0]
  show (75 : ℚ) ≤ 80
  norm_num

/-- A mean of confidences is never negative: only confidences `≥ 0` are
kept, and the empty case scores 0. -/
theorem meanConfidence_nonneg (d : OcrData) : 0 ≤ meanConfidence d := by
  simp only [meanConfidence]
  rw [filterMap_kept_eq]
  split
  · exact le_refl 0
  · apply div_nonneg
    · apply List.sum_nonneg
      intro x hx
      obtain ⟨ct, hct, hfst⟩ := List.mem_map.mp hx
      have := (List.mem_filter.mp hct).2
      have h0 : (0 : ℚ) ≤ ct.1 := of_decide_eq_true ((Bool.and_eq_true _ _).mp this).1
      rw [← hfst]
      exact h0
    · positivity

/-- A candidate score is `-1` (engine error) or nonnegative (a mean of
nonnegative confidences). -/
theorem scoreCandidate_range (engine : DataEngine) (cfg : OcrCfg) (c : Cand) :
    scoreCandidate engine cfg c = -1 ∨ 0 ≤ scoreCandidate engine cfg c := by
  rcases hE : engine (preprocessForOcr c.1 cfg) c.2.1 cfg.oem c.2.2 with _ | d
  · left; simp [scoreCandidate, hE]
  · right; simp [scoreCandidate, hE, meanConfidence_nonneg]

/-- The invariant of the accumulator: a stored best is a (score, candidate)
pair of the scoring function. -/
def goodBest (score : Cand → ℚ) : Option (ℚ × Cand) → Prop
  | none => True
  | some b => b.1 = score b.2

/-- If some listed candidate (or the accumulator) scores at least 0 and the
threshold exceeds -1, the loop's final best scores at least 0. -/
theorem ocrLoop_success (score : Cand → ℚ) (th : ℚ) (hth : -1 < th)
    (hrange : ∀ c, score c = -1 ∨ 0 ≤ score c) :
    ∀ (l : List Cand) (best : Option (ℚ × Cand)), goodBest score best →
      ((∃ c ∈ l, 0 ≤ score c) ∨ (∃ s b, best = some (s, b) ∧ 0 ≤ s)) →
      ∃ s c', (ocrLoop score th l best).1 = some (s, c')
        ∧ 0 ≤ s ∧ s = score c' := by
  intro l
  induction l with
  | nil =>
    intro best hgood hex
    rcases hex with ⟨c, hc, _⟩ | ⟨s, b, hb, hs⟩
    · exact absurd hc (List.not_mem_nil c)
    · subst hb
      exact ⟨s, b, rfl, hs, hgood⟩
  | cons a rest ih =>
    intro best hgood hex
    by_cases hstop : th ≤ score a
    · have h0 : 0 ≤ score a := by
        rcases hrange a with h | h
        · rw [h] at hstop
          exact absurd hstop (not_le.mpr hth)
        · exact h
      refine ⟨score a, a, ?_, h0, rfl⟩
      simp only [ocrLoop, if_pos hstop]
    · have hgood' : goodBest score
          (if bestImproved best (score a) then some (score a, a) else best) := by
        split
        · rfl
        · exact hgood
      have hex' : (∃ c ∈ rest, 0 ≤ score c)
          ∨ (∃ s b, (if bestImproved best (score a) then some (score a, a) else best)
              = some (s, b) ∧ 0 ≤ s) := by
        rcases hex with ⟨c, hc, hsc⟩ | ⟨s, b, hb, hs⟩
        · rcases List.mem_cons.mp hc with rfl | hmem
          · right
            rcases hbi : bestImproved best (score c) with _ | _
            · rcases best with _ | ⟨⟨sb, cb⟩⟩
              · exact absurd hbi (by simp [bestImproved])
              · have : ¬ sb < score c := of_decide_eq_false (by simpa [bestImproved] using hbi)
                exact ⟨sb, cb, by simp [hbi], le_trans hsc (not_lt.mp this)⟩
            · exact ⟨score c, c, by simp [hbi], hsc⟩
          · left; exact ⟨c, hmem, hsc⟩
        · right
          subst hb
          rcases hbi : bestImproved (some (s, b)) (score a) with _ | _
          · exact ⟨s, b, by simp [hbi], hs⟩
          · have : s < score a := of_decide_eq_true (by simpa [bestImproved] using hbi)
            exact ⟨score a, a, by simp [hbi], le_trans hs (le_of_lt this)⟩
      obtain ⟨s, c', hres, hs0, hsc⟩ := ih _ hgood' hex'
      refine ⟨s, c', ?_, hs0, hsc⟩
      simp only [ocrLoop, if_neg hstop]
      exact hres

/-- With every listed candidate scoring -1 and a threshold above -1, the
loop keeps an accumulated `(-1, c0)` unchanged (strict-greater
replacement never fires, early stop never fires). -/
theorem ocrLoop_keep_fail (score : Cand → ℚ) (th : ℚ) (hth : -1 < th) (c0 : Cand) :
    ∀ l, (∀ c ∈ l, score c = -1) →
      ocrLoop score th l (some (-1, c0)) = (some (-1, c0), l.length) := by
  intro l
  induction l with
  | nil => intro _; rfl
  | cons a rest ih =>
    intro hall
    have hsa : score a = -1 := hall a (List.mem_cons_self a rest)
    have hbi : bestImproved (some ((-1 : ℚ), c0)) (score a) = false := by
      simp [bestImproved, hsa]
    have hstop : ¬ th ≤ score a := by rw [hsa]; exact not_le.mpr hth
    have hrest := ih (fun c hc => hall c (List.mem_cons_of_mem a hc))
    simp only [ocrLoop, if_neg hstop, hbi, if_neg Bool.false_ne_true, hrest,
      List.length_cons]

/-- C6 (amended: requires `early_stop_conf > -1`, see the counterexample):
an engine error makes `_score_candidate` return -1.0; the search in
`ocr_image` continues past a failing candidate; a failing candidate is
never the final selection while some candidate succeeds; and when every
candidate fails, the first-generated candidate remains the best. -/
theorem claim_C6 (engine : DataEngine) (cfg : OcrCfg)
    (hth : -1 < cfg.early_stop_conf) :
    (∀ c : Cand,
      engine (preprocessForOcr c.1 cfg) c.2.1 cfg.oem c.2.2 = none →
      scoreCandidate engine cfg c = -1)
    ∧ (∀ (c : Cand) (rest : List Cand) (best : Option (ℚ × Cand)),
        scoreCandidate engine cfg c = -1 →
        ocrLoop (scoreCandidate engine cfg) cfg.early_stop_conf (c :: rest) best
          = ((ocrLoop (scoreCandidate engine cfg) cfg.early_stop_conf rest
                (if bestImproved best (-1) then some (-1, c) else best)).1,
             (ocrLoop (scoreCandidate engine cfg) cfg.early_stop_conf rest
                (if bestImproved best (-1) then some (-1, c) else best)).2 + 1))
    ∧ (∀ (g : GImg) (c : Cand), c ∈ iterCandidates g cfg →
        engine (preprocessForOcr c.1 cfg) c.2.1 cfg.oem c.2.2 ≠ none →
        ∃ s c', (ocrLoop (scoreCandidate engine cfg) cfg.early_stop_conf
              (iterCandidates g cfg) none).1 = some (s, c')
          ∧ 0 ≤ s
          ∧ engine (preprocessForOcr c'.1 cfg) c'.2.1 cfg.oem c'.2.2 ≠ none)
    ∧ (∀ (g : GImg) (c0 : Cand) (rest : List Cand),
        iterCandidates g cfg = c0 :: rest →
        (∀ c ∈ iterCandidates g cfg, scoreCandidate engine cfg c = -1) →
        ocrLoop (scoreCandidate engine cfg) cfg.early_stop_conf
            (iterCandidates g cfg) none
          = (some (-1, c0), (iterCandidates g cfg).length)) := by
  refine ⟨?_, ?_, ?_, ?_⟩
  · intro c hE
    simp [scoreCandidate, hE]
  · intro c rest best hsc
    simp only [ocrLoop, hsc, if_neg (not_le.mpr hth)]
  · intro g c hmem hE
    have h0 : 0 ≤ scoreCandidate engine cfg c := by
      rcases hE' : engine (preprocessForOcr c.1 cfg) c.2.1 cfg.oem c.2.2 with _ | d
      · exact absurd hE' hE
      · simp [scoreCandidate, hE', meanConfidence_nonneg]
    obtain ⟨s, c', hres, hs0, hsc⟩ :=
      ocrLoop_success (scoreCandidate engine cfg) cfg.early_stop_conf hth
        (scoreCandidate_range engine cfg)
        (iterCandidates g cfg) none trivial (Or.inl ⟨c, hmem, h0⟩)
    refine ⟨s, c', hres, hs0, ?_⟩
    intro hE'
    have : scoreCandidate engine cfg c' = -1 := by simp [scoreCandidate, hE']
    rw [hsc, this] at hs0
    exact absurd hs0 (by norm_num)
  · intro g c0 rest hiter hall
    rw [hiter] at hall ⊢
    have hsc0 : scoreCandidate engine cfg c0 = -1 :=
      hall c0 (List.mem_cons_self c0 rest)
    have hrest := ocrLoop_keep_fail (scoreCandidate engine cfg)
      cfg.early_stop_conf hth c0 rest
      (fun c hc => hall c (List.mem_cons_of_mem c0 hc))
    have hbi : bestImproved none (-1 : ℚ) = true := rfl
    simp only [ocrLoop, hsc0, if_neg (not_le.mpr hth), List.length_cons]
    rw [hbi, if_pos rfl, hrest]

/-- Engine failing (TesseractError) on the plain variant and succeeding
with confidence 50 on the trimmed variant. -/
def exEngine6 : DataEngine := fun i _ _ _ =>
  if hasTrim i then some ⟨[50], ["A"]⟩ else none

/-- Concrete instance of C6 under the default threshold 75: the failing
first candidate scores -1 and the loop's final best is a succeeding
candidate with nonnegative score. -/
theorem claim_C6_witness :
    scoreCandidate exEngine6 exCfg1 exCand0 = -1
      ∧ ∃ s c', (ocrLoop (scoreCandidate exEngine6 exCfg1)
            exCfg1.early_stop_conf (iterCandidates exG4 exCfg1) none).1
          = some (s, c')
        ∧ 0 ≤ s
        ∧ exEngine6 (preprocessForOcr c'.1 exCfg1) c'.2.1 exCfg1.oem c'.2.2
            ≠ none := by
  have h := claim_C6 exEngine6 exCfg1 (show (-1 : ℚ) < 75 by norm_num)
  refine ⟨h.1 exCand0 rfl, h.2.2.1 exG4 exCand1 ?_ ?_⟩
  · exact List.mem_cons_of_mem _ (List.mem_singleton.mpr rfl)
  · intro hnone
    exact Option.noConfusion
      (show some (⟨[50], ["A"]⟩ : OcrData) = none from hnone)

/-- Configuration like `exCfg1` but with `early_stop_conf = -2`. -/
def exCfgNeg : OcrCfg :=
  { enabled := true, lang_candidates := ["eng"], psm_candidates := [6],
    auto_rotate := false, crop_label := false, early_stop_conf := -2 }

/-- Counterexample to C6 as stated: with `early_stop_conf = -2.0` the
failing first candidate (score -1.0) satisfies the early-stop test, so
the search does NOT continue and the failing candidate IS the final
selection even though the second candidate succeeds with score 50. -/
theorem claim_C6_counterexample :
    scoreCandidate exEngine6 exCfgNeg exCand0 = -1
      ∧ scoreCandidate exEngine6 exCfgNeg exCand1 = 50
      ∧ ocrLoop (scoreCandidate exEngine6 exCfgNeg) exCfgNeg.early_stop_conf
          (iterCandidates exG4 exCfgNeg) none = (some (-1, exCand0), 1) := by
  refine ⟨rfl, ?_, ?_⟩
  · have h : scoreCandidate exEngine6 exCfgNeg exCand1
        = meanConfidence ⟨[50], ["A"]⟩ := rfl
    rw [h]
    simp only [meanConfidence]
    rw [filterMap_kept_eq]
    have hq : specQualifying [50] ["A"] = [(50, "A")] := by decide
    rw [hq]
    norm_num
  · have hstep : iterCandidates exG4 exCfgNeg = [exCand0, exCand1] := rfl
    rw [hstep]
    have hsc0 : scoreCandidate exEngine6 exCfgNeg exCand0 = -1 := rfl
    have hstop : exCfgNeg.early_stop_conf ≤ (-1 : ℚ) := by
      show (-2 : ℚ) ≤ -1
      norm_num
    simp only [ocrLoop, hsc0]
    rw [if_pos hstop]


/-- `QrCfg` (qr_utils.py lines 10–13), with the source's defaults. -/
structure QrCfg where
  enabled : Bool := false
  rotation_candidates : List Int := [0, -90]

/-- The opaque `cv2.QRCodeDetector().detectAndDecode` call composed with
`_to_cv`: a pure function from the (rotated) image to the decoded
payload string, `""` when no QR code is found. -/
abbrev QrDetector := PImg → String

/-- Python's `str.strip()`: surrounding whitespace removed, modelled on the
character list. -/
def pyStrip (s : String) : String :=
  ⟨((s.data.dropWhile Char.isWhitespace).reverse.dropWhile
      Char.isWhitespace).reverse⟩

/-- The rotation loop of `decode_qr` (qr_utils.py lines 25–29): rotate,
decode, return the stripped payload on the first non-empty decode. -/
def decodeQrLoop (qrDet : QrDetector) (img : PImg) : List Int → Option String
  | [] => none
  | deg :: rest =>
    let data := qrDet (PImg.rotated deg img)
    if data ≠ "" then some (pyStrip data) else decodeQrLoop qrDet img rest

/-- `decode_qr` (qr_utils.py lines 21–30). -/
def decodeQr (qrDet : QrDetector) (img : PImg) (cfg : QrCfg) : Option String :=
  if cfg.enabled = false then none
  else decodeQrLoop qrDet img cfg.rotation_candidates

theorem decodeQrLoop_all_empty (qrDet : QrDetector) (img : PImg) :
    ∀ rots : List Int, (∀ d ∈ rots, qrDet (PImg.rotated d img) = "") →
      decodeQrLoop qrDet img rots = none := by
  intro rots
  induction rots with
  | nil => intro _; rfl
  | cons deg rest ih =>
    intro hall
    have h0 : qrDet (PImg.rotated deg img) = "" :=
      hall deg (List.mem_cons_self deg rest)
    simp only [decodeQrLoop, h0]
    rw [if_neg (by simp)]
    exact ih (fun d hd => hall d (List.mem_cons_of_mem deg hd))

theorem decodeQrLoop_first_hit (qrDet : QrDetector) (img : PImg) :
    ∀ (rots : List Int) (i : Nat) (d : Int),
      (∀ j d', j < i → rots[j]? = some d' → qrDet (PImg.rotated d' img) = "") →
      rots[i]? = some d → qrDet (PImg.rotated d img) ≠ "" →
      decodeQrLoop qrDet img rots
        = some (pyStrip (qrDet (PImg.rotated d img))) := by
  intro rots
  induction rots with
  | nil => intro i d _ hd _; simp at hd
  | cons a rest ih =>
    intro i d hbefore hd hne
    cases i with
    | zero =>
      have ha : a = d := by simpa using hd
      subst ha
      simp only [decodeQrLoop]
      rw [if_pos hne]
    | succ i =>
      have h0 : qrDet (PImg.rotated a img) = "" :=
        hbefore 0 a (Nat.succ_pos i) (by simp)
      have hrec := ih i d
        (fun j d' hj hx => hbefore (j + 1) d' (by omega) (by simpa using hx))
        (by simpa using hd) hne
      simp only [decodeQrLoop, h0]
      rw [if_neg (by simp)]
      exact hrec

/-- C8: `decode_qr` returns nothing when QR is disabled; otherwise it tries
the configured rotations in order and returns the first non-empty decoded
payload stripped of surrounding whitespace, or nothing when every
rotation decodes empty. -/
theorem claim_C8 (qrDet : QrDetector) (img : PImg) (cfg : QrCfg) :
    (cfg.enabled = false → decodeQr qrDet img cfg = none)
    ∧ (cfg.enabled = true →
        (∀ d ∈ cfg.rotation_candidates, qrDet (PImg.rotated d img) = "") →
        decodeQr qrDet img cfg = none)
    ∧ (cfg.enabled = true →
        ∀ (i : Nat) (d : Int),
          (∀ j d', j < i → cfg.rotation_candidates[j]? = some d' →
            qrDet (PImg.rotated d' img) = "") →
          cfg.rotation_candidates[i]? = some d →
          qrDet (PImg.rotated d img) ≠ "" →
          decodeQr qrDet img cfg
            = some (pyStrip (qrDet (PImg.rotated d img)))) := by
  refine ⟨?_, ?_, ?_⟩
  · intro hdis
    simp [decodeQr, hdis]
  · intro hen hall
    simp only [decodeQr, hen]
    rw [if_neg (by simp)]
    exact decodeQrLoop_all_empty qrDet img cfg.rotation_candidates hall
  · intro hen i d hbefore hd hne
    simp only [decodeQr, hen]
    rw [if_neg (by simp)]
    exact decodeQrLoop_first_hit qrDet img cfg.rotation_candidates i d hbefore hd hne

/-- A QR detector decoding the payload `" ABC123 "` on every rotation. -/
def exQrDet : QrDetector := fun _ => " ABC123 "

/-- QR enabled with the default rotations. -/
def exQrOn : QrCfg := { enabled := true }

/-- Concrete instance of C8: enabled QR decodes at the first rotation and
strips the payload; disabled QR yields nothing. -/
theorem claim_C8_witness :
    decodeQr exQrDet (PImg.base exG4) exQrOn = some "ABC123"
      ∧ decodeQr exQrDet (PImg.base exG4) {} = none := by
  constructor
  · have h := (claim_C8 exQrDet (PImg.base exG4) exQrOn).2.2 rfl 0 0
      (fun j d' hj _ => absurd hj (Nat.not_lt_zero j)) rfl (by decide)
    rw [h]
    decide
  · exact (claim_C8 exQrDet (PImg.base exG4) {}).1 rfl

/-- `_build_text_output` (make_thumbs.py lines 200–213): run `ocr_image`;
with no QR config or QR disabled return the OCR text unchanged; else
decode QR and join the parts (a `[QR]` part only for a truthy payload,
always an `[OCR]` part) with a blank line. -/
def buildTextOutput (engine : DataEngine) (textEngine : TextEngine)
    (qrDet : QrDetector) (ocrSrc : GImg) (ocrCfg : OcrCfg)
    (qrCfg : Option QrCfg) : String :=
  let ocrText := ocrImage engine textEngine ocrSrc ocrCfg
  match qrCfg with
  | none => ocrText
  | some q =>
    if q.enabled = false then ocrText
    else
      let qrText := decodeQr qrDet (PImg.base ocrSrc) q
      let parts : List String :=
        (match qrText with
          | some p => if p ≠ "" then ["[QR]\n" ++ p] else []
          | none => []) ++ ["[OCR]\n" ++ ocrText]
      String.intercalate "\n\n" parts

/-- C7: with QR enabled and a decoded (truthy) payload `p`, the combined
output is `"[QR]\n" ++ p ++ "\n\n" ++ "[OCR]\n" ++ t`; with no QR config
or QR disabled it is exactly the OCR text `t`, with no markers. -/
theorem claim_C7 (engine : DataEngine) (textEngine : TextEngine)
    (qrDet : QrDetector) (src : GImg) (ocrCfg : OcrCfg) :
    (buildTextOutput engine textEngine qrDet src ocrCfg none
        = ocrImage engine textEngine src ocrCfg)
    ∧ (∀ q : QrCfg, q.enabled = false →
        buildTextOutput engine textEngine qrDet src ocrCfg (some q)
          = ocrImage engine textEngine src ocrCfg)
    ∧ (∀ (q : QrCfg) (p : String), q.enabled = true →
        decodeQr qrDet (PImg.base src) q = some p → p ≠ "" →
        buildTextOutput engine textEngine qrDet src ocrCfg (some q)
          = "[QR]\n" ++ p ++ "\n\n" ++ "[OCR]\n"
              ++ ocrImage engine textEngine src ocrCfg) := by
  refine ⟨rfl, ?_, ?_⟩
  · intro q hdis
    simp [buildTextOutput, hdis]
  · intro q p hen hdec hp
    simp only [buildTextOutput, hen, hdec]
    rw [if_neg (by simp)]
    rw [if_pos hp]
    show ("[QR]\n" ++ p) ++ "\n\n" ++ ("[OCR]\n"
      ++ ocrImage engine textEngine src ocrCfg) = _
    simp only [String.append_assoc]

/-- Text engine returning a fixed string, as in the spec's example. -/
def exText7 : TextEngine := fun _ _ _ _ => "Sample"

theorem exOcrSample : ocrImage exEngine1 exText7 exG4 exCfg1 = "Sample" := by
  have hloop := ocrLoop_first_hit (scoreCandidate exEngine1 exCfg1)
    exCfg1.early_stop_conf (iterCandidates exG4 exCfg1) none 0 exCand0
    (fun j x hj _ => absurd hj (Nat.not_lt_zero j)) rfl
    (by rw [exScore0]; show (75 : ℚ) ≤ 80; norm_num)
  simp only [ocrImage, hloop]
  rfl

/-- Concrete instance of C7: payload "ABC123" and OCR text "Sample" give
exactly the spec's example output; with no QR config the output is
exactly "Sample". -/
theorem claim_C7_witness :
    buildTextOutput exEngine1 exText7 exQrDet exG4 exCfg1 (some exQrOn)
        = "[QR]\nABC123\n\n[OCR]\nSample"
      ∧ buildTextOutput exEngine1 exText7 exQrDet exG4 exCfg1 none
          = "Sample" := by
  have h := claim_C7 exEngine1 exText7 exQrDet exG4 exCfg1
  constructor
  · have hdec : decodeQr exQrDet (PImg.base exG4) exQrOn = some "ABC123" := by
      decide
    have := h.2.2 exQrOn "ABC123" rfl hdec (by decide)
    rw [this, exOcrSample]
    decide
  · rw [h.1, exOcrSample]

/-- A filesystem path, as its list of components (pathlib semantics:
`p.parent / name` is `p.dropLast ++ [name]`). -/
abbrev FsPath := List String

/-- The filesystem state the pipeline inspects: modification times by path
(newest entry first; a path absent from the list does not exist). -/
abbrev FS := List (FsPath × Nat)

/-- `path.stat().st_mtime` / `path.exists()`. -/
def fsLookup (fs : FS) (p : FsPath) : Option Nat :=
  (fs.find? fun e => decide (e.1 = p)).map (fun e => e.2)

/-- Observable external actions of the per-file pipeline. -/
inductive FsEvent where
  | openSlide (path : FsPath)
  | closeSlide (path : FsPath)
  | writeFile (path : FsPath)
  | openImage (path : FsPath)
  | closeImage (path : FsPath)
deriving DecidableEq

/-- `is_up_to_date` (make_thumbs.py lines 52–53):
`out.exists() and out.stat().st_mtime >= src.stat().st_mtime`, with
Python's short-circuit: a missing `out` yields `False` without touching
`src`; a missing `src` with an existing `out` raises (`none`). -/
def isUpToDate (fs : FS) (src out : FsPath) : Option Bool :=
  match fsLookup fs out with
  | none => some false
  | some mo =>
    match fsLookup fs src with
    | none => none
    | some ms => some (decide (ms ≤ mo))

/-- `ThumbCfg` (make_thumbs.py lines 22–42), with the source's defaults. -/
structure ThumbCfg where
  preferred_assoc : List String := ["thumbnail", "macro", "label"]
  preferred_assoc_for_ocr : List String := ["label", "macro", "thumbnail"]
  max_size : Nat × Nat := (512, 512)
  ocr_render_size : Nat × Nat := (2048, 2048)
  jpeg_quality : Nat := 85
  ndpi_inside_name : String := "slide.ndpi"
  folder_thumb_name : String := "folder.jpg"
  folder_ocr_name : String := "folder.ocr.txt"

/-- `(out_txt is not None) and (not is_up_to_date(ndpi_inside, out_txt))`
(make_thumbs.py line 172), with the short-circuit on `None`. -/
def txtNeededCheck (fs : FS) (ndpi : FsPath) : Option FsPath → Option Bool
  | none => some false
  | some t => (isUpToDate fs ndpi t).map (fun u => !u)

/-- `_process_outputs` (make_thumbs.py lines 123–137): re-check each output
and write it when stale. The atomic temp-file-then-rename writes are
collapsed to a single mtime update (`now`) plus a write event; file
contents are outside this model. -/
def processOutputs (now : Nat) (fs : FS) (ndpi outJpg : FsPath)
    (outTxt : Option FsPath) : Option (FS × List FsEvent) :=
  match isUpToDate fs ndpi outJpg with
  | none => none
  | some u1 =>
    let fs1 := if u1 = false then (outJpg, now) :: fs else fs
    let ev1 : List FsEvent := if u1 = false then [FsEvent.writeFile outJpg] else []
    match outTxt with
    | none => some (fs1, ev1)
    | some t =>
      match isUpToDate fs1 ndpi t with
      | none => none
      | some u2 =>
        if u2 = false then some ((t, now) :: fs1, ev1 ++ [FsEvent.writeFile t])
        else some (fs1, ev1)

/-- `write_folder_cover_and_ocr` (make_thumbs.py lines 154–186): compute
the two output paths, check freshness, return `(None, None)` when both
are up to date, handle dry-run, else open the slide, process outputs and
close the slide (the `finally`). A raised filesystem error is `none`
(it propagates after `slide.close()`). -/
def writeFolderCoverAndOcr (now : Nat) (fs : FS) (ndpi : FsPath)
    (cfg : ThumbCfg) (ocrCfg : OcrCfg) (dryRun : Bool) :
    Option ((Option FsPath × Option FsPath) × FS × List FsEvent) :=
  let outJpg := ndpi.dropLast ++ [cfg.folder_thumb_name]
  let outTxt : Option FsPath :=
    if ocrCfg.enabled = true then some (ndpi.dropLast ++ [cfg.folder_ocr_name])
    else none
  match isUpToDate fs ndpi outJpg with
  | none => none
  | some u1 =>
    match txtNeededCheck fs ndpi outTxt with
    | none => none
    | some txtNeeded =>
      let jpgNeeded := !u1
      if jpgNeeded = false ∧ txtNeeded = false then
        some ((none, none), fs, [])
      else if dryRun = true then
        some ((if jpgNeeded then some outJpg else none,
               if txtNeeded then outTxt else none), fs, [])
      else
        match processOutputs now fs ndpi outJpg outTxt with
        | none => none
        | some (fs', ev) =>
          some ((if jpgNeeded then some outJpg else none,
                 if txtNeeded then outTxt else none),
                fs', FsEvent.openSlide ndpi :: ev ++ [FsEvent.closeSlide ndpi])

/-- C9: when the cover image already exists with mtime at least the
slide's, and, if OCR is enabled, so does the OCR text file, the function
returns `(None, None)`, performs no open/close/write, and leaves the
filesystem unchanged. -/
theorem claim_C9 (now : Nat) (fs : FS) (ndpi : FsPath) (cfg : ThumbCfg)
    (ocrCfg : OcrCfg) (dryRun : Bool) (ms mj : Nat)
    (hsrc : fsLookup fs ndpi = some ms)
    (hjpg : fsLookup fs (ndpi.dropLast ++ [cfg.folder_thumb_name]) = some mj)
    (hmj : ms ≤ mj)
    (htxt : ocrCfg.enabled = true →
      ∃ mt, fsLookup fs (ndpi.dropLast ++ [cfg.folder_ocr_name]) = some mt
        ∧ ms ≤ mt) :
    writeFolderCoverAndOcr now fs ndpi cfg ocrCfg dryRun
      = some ((none, none), fs, []) := by
  have hu1 : isUpToDate fs ndpi (ndpi.dropLast ++ [cfg.folder_thumb_name])
      = some true := by
    simp [isUpToDate, hsrc, hjpg, hmj]
  have htn : txtNeededCheck fs ndpi
      (if ocrCfg.enabled = true
        then some (ndpi.dropLast ++ [cfg.folder_ocr_name]) else none)
      = some false := by
    rcases hen : ocrCfg.enabled with _ | _
    · simp [txtNeededCheck, hen]
    · obtain ⟨mt, hmt, hms⟩ := htxt hen
      simp [txtNeededCheck, hen, isUpToDate, hsrc, hmt, hms]
  simp only [writeFolderCoverAndOcr, hu1, htn]
  simp

/-- A slide folder holding `slide.ndpi` with mtime 5 and both outputs
fresher (7 and 9). -/
def exNdpi : FsPath := ["root", "P1", "slide.ndpi"]

/-- The filesystem for the C9 instance. -/
def exFs : FS :=
  [(exNdpi, 5), (["root", "P1", "folder.jpg"], 7),
   (["root", "P1", "folder.ocr.txt"], 9)]

/-- Concrete instance of C9: with OCR enabled and both outputs up to date,
the call returns `(None, None)`, leaves the filesystem as it was and
performs no action. -/
theorem claim_C9_witness :
    writeFolderCoverAndOcr 10 exFs exNdpi {} { enabled := true } false
      = some ((none, none), exFs, []) :=
  claim_C9 10 exFs exNdpi {} { enabled := true } false 5 7
    (by decide) (by decide) (by norm_num)
    (fun _ => ⟨9, by decide, by norm_num⟩)

/-- `ocr_image_path` (ocr_utils.py lines 189–196): return `""` at once when
OCR is disabled; else open the image, run `ocr_image` on it (`runOcr`,
an opaque possibly-raising call: `Except.error` models a raised
exception), and close the handle in the `finally` on both exit paths. -/
def ocrImagePath (runOcr : GImg → OcrCfg → Except String String)
    (openImg : FsPath → GImg) (path : FsPath) (cfg : OcrCfg) :
    Except String String × List FsEvent :=
  if cfg.enabled = false then (Except.ok "", [])
  else
    let img := openImg path
    match runOcr img cfg with
    | Except.ok s =>
      (Except.ok s, [FsEvent.openImage path, FsEvent.closeImage path])
    | Except.error e =>
      (Except.error e, [FsEvent.openImage path, FsEvent.closeImage path])

/-- C10: with OCR disabled, `ocr_image_path` returns `""` without opening
the image or invoking the OCR call (its result does not depend on the
OCR function at all); with OCR enabled, the opened handle is closed on
every exit path — the event trace is open-then-close both when the OCR
call returns and when it raises — and the outcome is the OCR call's. -/
theorem claim_C10 (runOcr : GImg → OcrCfg → Except String String)
    (openImg : FsPath → GImg) (path : FsPath) (cfg : OcrCfg) :
    (cfg.enabled = false →
      ocrImagePath runOcr openImg path cfg = (Except.ok "", [])
      ∧ ∀ runOcr' : GImg → OcrCfg → Except String String,
          ocrImagePath runOcr openImg path cfg
            = ocrImagePath runOcr' openImg path cfg)
    ∧ (cfg.enabled = true →
      (ocrImagePath runOcr openImg path cfg).2
          = [FsEvent.openImage path, FsEvent.closeImage path]
      ∧ (ocrImagePath runOcr openImg path cfg).1 = runOcr (openImg path) cfg) := by
  constructor
  · intro hdis
    constructor
    · simp [ocrImagePath, hdis]
    · intro runOcr'
      simp [ocrImagePath, hdis]
  · intro hen
    rcases hr : runOcr (openImg path) cfg with e | s
    · constructor <;> simp [ocrImagePath, hen, hr]
    · constructor <;> simp [ocrImagePath, hen, hr]

/-- An OCR call that raises on every input. -/
def exRunOcrErr : GImg → OcrCfg → Except String String :=
  fun _ _ => Except.error "boom"

/-- Image opener for the C10 instance. -/
def exOpenImg : FsPath → GImg := fun _ => exG4

/-- Concrete instance of C10: disabled OCR returns `""` with no events and
ignores the OCR function; enabled OCR with a raising call still closes
the handle. -/
theorem claim_C10_witness :
    (ocrImagePath exRunOcrErr exOpenImg ["p"] {} = (Except.ok "", [])
      ∧ ocrImagePath exRunOcrErr exOpenImg ["p"] {}
          = ocrImagePath (fun _ _ => Except.ok "x") exOpenImg ["p"] {})
    ∧ (ocrImagePath exRunOcrErr exOpenImg ["p"] exCfg1).2
        = [FsEvent.openImage ["p"], FsEvent.closeImage ["p"]] := by
  have h1 := (claim_C10 exRunOcrErr exOpenImg ["p"] {}).1 rfl
  have h2 := (claim_C10 exRunOcrErr exOpenImg ["p"] exCfg1).2 rfl
  exact ⟨⟨h1.1, h1.2 _⟩, h2.1⟩
